import Mathlib

/-!
A shallow embedding of the loan-gathering pass of the borrow checker
(`src/librustc/middle/borrowck/gather_loans/mod.rs`) together with proofs
about its behaviour.

External collaborators that live outside the embedded file (memory
categorization, the region/scope oracle, the lifetime-validity checker and
the restriction engine) are modelled as oracle functions bundled in the
`Oracles` structure.  The side effects of the original code — diagnostics
reported through `bccx.report`, insertions into `tcx.used_mut_nodes`,
loans pushed onto `all_loans`, and push/pop of `repeating_ids` — are
threaded through an explicit `GatherLoanCtxt` state.  Fatal conditions
(`span_bug`, failed assertions, `last()` of an empty vector) are modelled
by `Except.error`.  Calls to the external lifetime checker and stack
pushes/pops are additionally recorded in an `events` trace so that the
order and arguments of those operations can be stated as theorems.
-/

namespace GatherLoans

/-- `syntax::ast::mutability` (the requested exclusivity of a borrow):
`m_const` = Shared-Readonly, `m_imm` = Shared-Immutable, `m_mutbl` =
Exclusive-Mutable. -/
inductive Mutability where
  | m_const
  | m_imm
  | m_mutbl
  deriving DecidableEq, Repr

/-- `mc::MutabilityCategory`: the mutability provenance of a categorized
location. -/
inductive MutabilityCategory where
  | McImmutable
  | McDeclared
  | McInherited
  | McReadOnly
  deriving DecidableEq, Repr

/-- Modelled from the spec: `MutabilityCategory::is_mutable` lives in the
external memory-categorization module (not part of the embedded file).
Per the spec's data model, a location's provenance is itself mutable
exactly for `Declared` and `Inherited` provenance; `Immutable` and
`ReadOnly` are not mutable. -/
def MutabilityCategory.is_mutable : MutabilityCategory → Bool
  | .McDeclared => true
  | .McInherited => true
  | .McImmutable => false
  | .McReadOnly => false

/-- `ty::Region`, restricted to the variants this pass inspects. -/
inductive Region where
  | re_bound (idx : Nat)
  | re_free (scope_id : Nat) (bound_region : Nat)
  | re_scope (id : Nat)
  | re_static
  | re_infer (idx : Nat)
  | re_empty
  deriving DecidableEq, Repr

/-- The extension component of a `LpExtend` link (deref / field / index);
its precise shape is irrelevant to this pass. -/
inductive LoanPathElem where
  | lp_deref
  | lp_interior (tag : Nat)
  deriving DecidableEq, Repr

/-- `LoanPath` from the surrounding borrowck module: the normalized,
structurally comparable description of a storage location. -/
inductive LoanPath where
  | LpVar (local_id : Nat)
  | LpExtend (base : LoanPath) (mc : MutabilityCategory) (elem : LoanPathElem)
  deriving DecidableEq, Repr

/-- Modelled from the spec: `LoanPath::node_id` lives in the surrounding
borrowck module (not part of the embedded file).  It returns the id of
the root local binding underlying the path. -/
def LoanPath.node_id : LoanPath → Nat
  | .LpVar local_id => local_id
  | .LpExtend base _ _ => base.node_id

/-- `RestrictionSet`: in the original, a bitset over `RESTR_MUTATE` and
`RESTR_FREEZE`. -/
structure RestrictionSet where
  mutate : Bool
  freeze : Bool
  deriving DecidableEq, Repr

def RESTR_EMPTY : RestrictionSet := ⟨false, false⟩

def RESTR_MUTATE : RestrictionSet := ⟨true, false⟩

def RESTR_FREEZE : RestrictionSet := ⟨false, true⟩

/-- Bitwise-or of restriction sets (the `|` operator of the original). -/
def RestrictionSet.union (a b : RestrictionSet) : RestrictionSet :=
  ⟨a.mutate || b.mutate, a.freeze || b.freeze⟩

/-- The result type of the external `restrictions::compute_restrictions`:
either no restriction is needed (`Safe`) or a restriction over a rooting
loan path is required (`SafeIf`). -/
inductive RestrictionResult where
  | Safe
  | SafeIf (loan_path : LoanPath) (restrictions : RestrictionSet)
  deriving DecidableEq, Repr

/-- `mc::cmt`: a categorized memory location.  A `leaf` stands for any
categorization other than `cat_discr`; `discr` is the
"discriminant-under-this-arm" wrapper produced by `cat_discr`, which
keeps the id/span/mutability of the wrapped location. -/
inductive Cmt where
  | leaf (id : Nat) (span : Nat) (mutbl : MutabilityCategory) (tag : Nat)
  | discr (inner : Cmt) (match_id : Nat)
  deriving DecidableEq, Repr

def Cmt.id : Cmt → Nat
  | .leaf i _ _ _ => i
  | .discr c _ => c.id

def Cmt.span : Cmt → Nat
  | .leaf _ s _ _ => s
  | .discr c _ => c.span

def Cmt.mutbl : Cmt → MutabilityCategory
  | .leaf _ _ m _ => m
  | .discr c _ => c.mutbl

/-- Modelled from the spec: `cat_discr` lives in the external memory
categorization module.  Per the spec, it wraps a location in a
"discriminant-under-this-arm" marker while preserving the location's
other attributes. -/
def cat_discr (cmt : Cmt) (match_id : Nat) : Cmt :=
  .discr cmt match_id

/-- The only `bckerr_code` variant this file constructs. -/
inductive BckErrorCode where
  | err_mutbl (req : Mutability)
  deriving DecidableEq, Repr

/-- `BckError`, as passed to the diagnostics sink `bccx.report`. -/
structure BckError where
  span : Nat
  cmt : Cmt
  code : BckErrorCode
  deriving DecidableEq, Repr

/-- The `Loan` record produced by loan synthesis. -/
structure Loan where
  index : Nat
  loan_path : LoanPath
  cmt : Cmt
  mutbl : Mutability
  gen_scope : Nat
  kill_scope : Nat
  span : Nat
  restrictions : RestrictionSet
  deriving DecidableEq, Repr

/-- Trace of the observable operations of the traversal: pushes/pops of
`repeating_ids` and calls to the external lifetime checker (recording
the `item_ub` and `root_ub` bounds and the span passed to it). -/
inductive Event where
  | push (id : Nat)
  | pop (id : Nat)
  | lifetime (item_ub : Nat) (root_ub : Nat) (span : Nat)
  deriving DecidableEq, Repr

/-- True for the stack operations among the events. -/
def Event.isStackOp : Event → Bool
  | .push _ => true
  | .pop _ => true
  | .lifetime _ _ _ => false

/-- Modelled from the spec: `syntax::ast_util::id_range` is external.  It
accumulates the minimum observed id and the maximum observed id plus one;
`IdRange.max` is the empty range used as the starting value. -/
structure IdRange where
  lo : Option Nat
  hi : Option Nat
  deriving DecidableEq, Repr

def IdRange.max : IdRange := ⟨none, none⟩

def IdRange.add (r : IdRange) (id : Nat) : IdRange :=
  { lo := some (match r.lo with | none => id | some l => Nat.min l id),
    hi := some (match r.hi with | none => id + 1 | some h => Nat.max h (id + 1)) }

/-- `GatherLoanCtxt`, extended with the side-effect channels of the
original: `diags` stands for the diagnostics reported through
`bccx.report`, `used_mut_nodes` for insertions into
`tcx.used_mut_nodes` (a set in the original; modelled as the list of
inserted ids), and `events` for the operation trace. -/
structure GatherLoanCtxt where
  id_range : IdRange
  all_loans : List Loan
  item_ub : Nat
  repeating_ids : List Nat
  diags : List BckError
  used_mut_nodes : List Nat
  events : List Event
  deriving DecidableEq, Repr

/-- `ast::binding_mode` of an identifier pattern. -/
inductive BindingMode where
  | bind_by_ref (m : Mutability)
  | bind_by_copy
  | bind_infer
  deriving DecidableEq, Repr

/-- The pattern shapes `gather_pat` inspects.  `pat_vec_slice` is a vector
pattern with a rest-capture whose slice sub-pattern has id `slice_id`;
`pat_other` covers every other pattern shape (including vector patterns
without a rest-capture), which contribute no loan. -/
inductive PatNode where
  | pat_ident (bm : BindingMode)
  | pat_vec_slice (slice_id : Nat)
  | pat_other
  deriving DecidableEq, Repr

structure Pat where
  id : Nat
  span : Nat
  node : PatNode
  deriving DecidableEq, Repr

/-- `ty::vstore`, as far as `vec_slice_info` inspects it. -/
inductive Vstore where
  | vstore_slice (r : Region)
  | vstore_other
  deriving DecidableEq, Repr

/-- `ty::t`, restricted to what `vec_slice_info` inspects: an evec with
its vstore, a region pointer with its referent type, or anything else. -/
inductive Ty where
  | ty_evec (m : Mutability) (v : Vstore)
  | ty_rptr (inner : Ty)
  | ty_other
  deriving DecidableEq, Repr

/-- `ty::AutoRef`. -/
inductive AutoRef where
  | AutoPtr (r : Region) (m : Mutability)
  | AutoBorrowVec (r : Region) (m : Mutability)
  | AutoBorrowVecRef (r : Region) (m : Mutability)
  | AutoBorrowFn (r : Region)
  | AutoUnsafe (m : Mutability)
  deriving DecidableEq, Repr

/-- `ty::AutoAdjustment`. -/
inductive AutoAdjustment where
  | AutoAddEnv
  | AutoDerefRef (autoderefs : Nat) (autoref : Option AutoRef)
  deriving DecidableEq, Repr

/-- The external collaborators, modelled as pure oracle functions.  The
categorization oracles are keyed by the node id of the expression or
pattern they categorize. -/
structure Oracles where
  /-- `region_maps.is_subscope_of` (region/scope oracle). -/
  is_subscope_of : Nat → Nat → Bool
  /-- `region_maps.encl_scope` (region/scope oracle). -/
  encl_scope : Nat → Nat
  /-- `bccx.is_subregion_of` (region/scope oracle). -/
  is_subregion_of : Region → Region → Bool
  /-- `restrictions::compute_restrictions` (span, location, requested
  restriction set). -/
  compute_restrictions : Nat → Cmt → RestrictionSet → RestrictionResult
  /-- `lifetime::guarantee_lifetime` (item_ub, root_ub, span, location,
  region, requested mutability); returns the diagnostics it reports. -/
  guarantee_lifetime : Nat → Nat → Nat → Cmt → Region → Mutability → List BckError
  /-- `tcx.adjustments` table, keyed by expression id. -/
  adjustments : Nat → Option AutoAdjustment
  /-- `bccx.method_map.contains_key`, keyed by expression id. -/
  method_map : Nat → Bool
  /-- `bccx.cat_expr`, keyed by expression id. -/
  cat_expr : Nat → Cmt
  /-- `mcx.cat_expr_autoderefd` (expression id, number of autoderefs). -/
  cat_expr_autoderefd : Nat → Nat → Cmt
  /-- `mcx.cat_index` (expression/pattern id, base location, deref count). -/
  cat_index : Nat → Cmt → Nat → Cmt
  /-- `mcx.cat_deref_fn` (expression id, base location, deref count). -/
  cat_deref_fn : Nat → Cmt → Nat → Cmt
  /-- `bccx.cat_pattern`: decomposes a pattern against a discriminant
  location into (sub-location, sub-pattern) pairs. -/
  cat_pattern : Cmt → Pat → List (Cmt × Pat)
  /-- `ty_region (expr_ty ex)`: the region of an expression's type, keyed
  by expression id. -/
  expr_ty_region : Nat → Region
  /-- `ty_region (node_id_to_type pat.id)`: the region of a pattern's
  type, keyed by pattern id. -/
  pat_ty_region : Nat → Region
  /-- `ty::node_id_to_type`, keyed by node id, as inspected by
  `vec_slice_info`. -/
  node_type : Nat → Ty
  /-- `pat_util::pat_is_binding`, keyed by pattern id. -/
  pat_is_binding : Nat → Bool

/-- `check_mutability` (nested in `guarantee_valid`): compares the
requested mutability against the location's mutability provenance and
returns the diagnostic it reports, if any. -/
def check_mutability (borrow_span : Nat) (cmt : Cmt) (req_mutbl : Mutability) :
    Option BckError :=
  match req_mutbl with
  | .m_const =>
      -- Data of any mutability can be lent as const.
      none
  | .m_imm =>
      match cmt.mutbl with
      | .McImmutable | .McDeclared | .McInherited =>
          -- both imm and mut data can be lent as imm;
          -- for mutable data, this is a freeze
          none
      | .McReadOnly =>
          some { span := borrow_span, cmt := cmt, code := .err_mutbl .m_imm }
  | .m_mutbl =>
      -- Only mutable data can be lent as mutable.
      if cmt.mutbl.is_mutable then none
      else some { span := borrow_span, cmt := cmt, code := .err_mutbl .m_mutbl }

/-- `restriction_set`: the restriction set implied by a requested
mutability. -/
def restriction_set (req_mutbl : Mutability) : RestrictionSet :=
  match req_mutbl with
  | .m_const => RESTR_EMPTY
  | .m_imm => RESTR_EMPTY.union RESTR_MUTATE
  | .m_mutbl => (RESTR_EMPTY.union RESTR_MUTATE).union RESTR_FREEZE

/-- `mark_loan_path_as_mutated`, as the list of ids it inserts into
`tcx.used_mut_nodes`: the root local's id when the walk reaches `LpVar`
through `McInherited` extension links only, and nothing when the walk
stops at a `McDeclared`, `McImmutable` or `McReadOnly` link. -/
def mark_loan_path_as_mutated : LoanPath → List Nat
  | .LpVar local_id => [local_id]
  | .LpExtend base .McInherited _ => mark_loan_path_as_mutated base
  | .LpExtend _ .McDeclared _ => []
  | .LpExtend _ .McImmutable _ => []
  | .LpExtend _ .McReadOnly _ => []

/-- `compute_gen_scope`: the loan is introduced at the borrow if the
borrow is a subscope of the loan scope, and at the loan scope
otherwise. -/
def compute_gen_scope (O : Oracles) (borrow_id : Nat) (loan_scope : Nat) : Nat :=
  if O.is_subscope_of borrow_id loan_scope then borrow_id else loan_scope

/-- `compute_kill_scope`: the restriction dies either with the lexical
scope of the root local or with the loan scope, whichever is smaller.
The original asserts `is_subscope_of loan_scope lexical_scope` in the
second branch; a failure of that assertion is modelled as `none`. -/
def compute_kill_scope (O : Oracles) (loan_scope : Nat) (lp : LoanPath) : Option Nat :=
  let lexical_scope := O.encl_scope lp.node_id
  if O.is_subscope_of lexical_scope loan_scope then
    some lexical_scope
  else if O.is_subscope_of loan_scope lexical_scope then
    some loan_scope
  else
    none

/-- The outcome of resolving the loan region to a concrete scope id
(the `match loan_region` in the `SafeIf` arm of `guarantee_valid`):
a concrete scope, a silent return without a loan (`re_static`), or a
`span_bug` (`re_empty`, `re_bound`, `re_infer`). -/
inductive LoanScopeRes where
  | scope (id : Nat)
  | noLoan
  | invalid
  deriving DecidableEq, Repr

/-- The region-to-scope resolution performed in the `SafeIf` arm of
`guarantee_valid`. -/
def loan_scope_of : Region → LoanScopeRes
  | .re_scope id => .scope id
  | .re_free scope_id _ => .scope scope_id
  | .re_static => .noLoan
  | .re_empty => .invalid
  | .re_bound _ => .invalid
  | .re_infer _ => .invalid

/-- `push_repeating_id`. -/
def push_repeating_id (g : GatherLoanCtxt) (id : Nat) : GatherLoanCtxt :=
  { g with repeating_ids := g.repeating_ids ++ [id],
           events := g.events ++ [.push id] }

/-- `pop_repeating_id`: pops the top of `repeating_ids` and asserts that
it equals `id`; assertion failure (or popping an empty stack) is a
fatal error. -/
def pop_repeating_id (g : GatherLoanCtxt) (id : Nat) : Except String GatherLoanCtxt :=
  match g.repeating_ids.getLast? with
  | some popped =>
      if id = popped then
        .ok { g with repeating_ids := g.repeating_ids.dropLast,
                     events := g.events ++ [.pop id] }
      else
        .error "assertion failed: id == popped"
  | none => .error "pop_repeating_id: repeating_ids is empty"

/-- The state after the first two checks of `guarantee_valid` have run
(the lifetime check, whose diagnostics and recorded call are those of
the external checker, and the mutability check, which appends its
diagnostic if it reports one). -/
def checked_state (O : Oracles) (g : GatherLoanCtxt) (root_ub : Nat)
    (borrow_span : Nat) (cmt : Cmt) (req_mutbl : Mutability)
    (loan_region : Region) : GatherLoanCtxt :=
  -- Check that the lifetime of the borrow does not exceed
  -- the lifetime of the data being borrowed.
  let g1 : GatherLoanCtxt :=
    { g with
      diags := g.diags ++
        O.guarantee_lifetime g.item_ub root_ub borrow_span cmt
          loan_region req_mutbl,
      events := g.events ++ [.lifetime g.item_ub root_ub borrow_span] }
  -- Check that we don't allow mutable borrows of non-mutable data.
  match check_mutability borrow_span cmt req_mutbl with
  | some e => { g1 with diags := g1.diags ++ [e] }
  | none => g1

/-- `guarantee_valid`: loan synthesis.  Returns the updated context, or
`Except.error` for the fatal conditions (`span_bug` on a malformed
region, the kill-scope assertion, `last()` of an empty stack). -/
def guarantee_valid (O : Oracles) (g : GatherLoanCtxt)
    (borrow_id : Nat) (borrow_span : Nat) (cmt : Cmt)
    (req_mutbl : Mutability) (loan_region : Region) :
    Except String GatherLoanCtxt :=
  -- a loan for the empty region can never be dereferenced, so
  -- it is always safe
  if loan_region = .re_empty then
    .ok g
  else
    match g.repeating_ids.getLast? with
    | none => .error "repeating_ids is empty"
    | some root_ub =>
      let g2 := checked_state O g root_ub borrow_span cmt req_mutbl loan_region
      -- Compute the restrictions that are required to enforce the
      -- loan is safe.
      match O.compute_restrictions borrow_span cmt (restriction_set req_mutbl) with
      | .Safe =>
          -- No restrictions---no loan record necessary
          .ok g2
      | .SafeIf loan_path restrs =>
          match loan_scope_of loan_region with
          | .noLoan =>
              -- static region: an error must already have been reported
              -- by the lifetime check; return without adding any loans
              .ok g2
          | .invalid => .error "Invalid borrow lifetime"
          | .scope loan_scope =>
              let gen_scope := compute_gen_scope O borrow_id loan_scope
              match compute_kill_scope O loan_scope loan_path with
              | none =>
                  .error "assertion failed: is_subscope_of(loan_scope, lexical_scope)"
              | some kill_scope =>
                  let g3 : GatherLoanCtxt :=
                    if req_mutbl = .m_mutbl then
                      { g2 with used_mut_nodes :=
                          g2.used_mut_nodes ++ mark_loan_path_as_mutated loan_path }
                    else g2
                  let loan : Loan :=
                    { index := g3.all_loans.length,
                      loan_path := loan_path,
                      cmt := cmt,
                      mutbl := req_mutbl,
                      gen_scope := gen_scope,
                      kill_scope := kill_scope,
                      span := borrow_span,
                      restrictions := restrs }
                  .ok { g3 with all_loans := g3.all_loans ++ [loan] }

/-- `vec_slice_info`: unwraps region-pointer layers of the slice
pattern's type until an evec with a slice vstore is found; any other
type is a fatal error (`span_bug`). -/
def vec_slice_info : Ty → Except String (Mutability × Region)
  | .ty_evec m (.vstore_slice r) => .ok (m, r)
  | .ty_evec _ .vstore_other => .error "Type of slice pattern is not a slice"
  | .ty_rptr inner => vec_slice_info inner
  | .ty_other => .error "Type of slice pattern is not a slice"

/-- `guarantee_adjustments`: loan synthesis for the implicit borrow
recorded as an adjustment on an expression with id `eid` and span
`espan`. -/
def guarantee_adjustments (O : Oracles) (g : GatherLoanCtxt)
    (eid : Nat) (espan : Nat) (adjustment : AutoAdjustment) :
    Except String GatherLoanCtxt :=
  match adjustment with
  | .AutoAddEnv =>
      -- no autoref
      .ok g
  | .AutoDerefRef _ none =>
      -- no autoref
      .ok g
  | .AutoDerefRef autoderefs (some autoref) =>
      let cmt := O.cat_expr_autoderefd eid autoderefs
      match autoref with
      | .AutoPtr r m =>
          guarantee_valid O g eid espan cmt m r
      | .AutoBorrowVec r m =>
          guarantee_valid O g eid espan (O.cat_index eid cmt (autoderefs + 1)) m r
      | .AutoBorrowVecRef r m =>
          guarantee_valid O g eid espan (O.cat_index eid cmt (autoderefs + 1)) m r
      | .AutoBorrowFn r =>
          guarantee_valid O g eid espan (O.cat_deref_fn eid cmt 0) .m_imm r
      | .AutoUnsafe _ => .ok g

/-- The body of `gather_pat`'s categorization callback, for one
(sub-location, sub-pattern) pair produced by the pattern
decomposition. -/
def gather_pat_pair (O : Oracles) (arm_body_id : Nat) (match_id : Nat)
    (g : GatherLoanCtxt) (cmt : Cmt) (pat : Pat) :
    Except String GatherLoanCtxt :=
  match pat.node with
  | .pat_ident bm =>
      if O.pat_is_binding pat.id then
        match bm with
        | .bind_by_ref mutbl =>
            -- ref x or ref x @ p --- creates a ptr which must
            -- remain valid for the scope of the match
            let scope_r := O.pat_ty_region pat.id
            -- if the scope of the region ptr turns out to be
            -- specific to this arm, wrap the categorization
            -- with a cat_discr() node
            let arm_scope := Region.re_scope arm_body_id
            if O.is_subregion_of scope_r arm_scope then
              guarantee_valid O g pat.id pat.span (cat_discr cmt match_id)
                mutbl scope_r
            else
              guarantee_valid O g pat.id pat.span cmt mutbl scope_r
        | .bind_by_copy =>
            -- neither copies nor moves induce borrows
            .ok g
        | .bind_infer => .ok g
      else .ok g
  | .pat_vec_slice slice_id =>
      -- the slice pattern borrows the elements of the matched vector
      match vec_slice_info (O.node_type slice_id) with
      | .error s => .error s
      | .ok (slice_mutbl, slice_r) =>
          let cmt_index := O.cat_index slice_id cmt 0
          guarantee_valid O g pat.id pat.span cmt_index slice_mutbl slice_r
  | .pat_other => .ok g

/-- Folds `gather_pat_pair` over the decomposition pairs. -/
def gather_pat_pairs (O : Oracles) (arm_body_id : Nat) (match_id : Nat) :
    List (Cmt × Pat) → GatherLoanCtxt → Except String GatherLoanCtxt
  | [], g => .ok g
  | (cmt, pat) :: rest, g =>
      match gather_pat_pair O arm_body_id match_id g cmt pat with
      | .error s => .error s
      | .ok g => gather_pat_pairs O arm_body_id match_id rest g

/-- `gather_pat`: decomposes `root_pat` against the discriminant location
via the external categorization service and synthesizes the loans of the
reference bindings and slice patterns it contains. -/
def gather_pat (O : Oracles) (g : GatherLoanCtxt) (discr_cmt : Cmt)
    (root_pat : Pat) (arm_body_id : Nat) (match_id : Nat) :
    Except String GatherLoanCtxt :=
  gather_pat_pairs O arm_body_id match_id (O.cat_pattern discr_cmt root_pat) g

/- The expression forms `gather_loans_in_expr` treats specially, plus a
generic `expr_other` for every other expression form (whose children are
simply visited).  Every expression carries its id, its separately
assigned callee id and its span, mirroring `ast::expr`.  Statements are
elided to the expressions they contain (the `stmt_map` side observation
is not modelled; no behaviour of loan synthesis depends on it), and
named items nested in the body are not represented since the visitor
never descends into them. -/
mutual

inductive Expr where
  | mk (id : Nat) (callee_id : Nat) (span : Nat) (node : ExprNode)

inductive ExprNode where
  | expr_addr_of (m : Mutability) (base : Expr)
  | expr_match (discr : Expr) (arms : Arms)
  | expr_index (recv : Expr) (arg : Expr)
  | expr_binary (recv : Expr) (arg : Expr)
  | expr_while (cond : Expr) (body : Blk)
  | expr_loop (body : Blk)
  | expr_fn_block (body : Blk)
  | expr_other (children : ExprList)

inductive ExprList where
  | nil
  | cons (hd : Expr) (tl : ExprList)

inductive Arms where
  | nil
  | cons (pats : List Pat) (body : Blk) (tl : Arms)

inductive Blk where
  | mk (id : Nat) (stmts : ExprList)

end

def Expr.id : Expr → Nat
  | .mk i _ _ _ => i

def Expr.callee_id : Expr → Nat
  | .mk _ c _ _ => c

def Expr.span : Expr → Nat
  | .mk _ _ s _ => s

def Blk.id : Blk → Nat
  | .mk i _ => i

/-- Adds the ids of an arm's patterns to the id range (the effect of the
`visit_pat` visitor hook, `add_pat_to_id_range`, on the arm's top-level
patterns). -/
def add_pat_ids (g : GatherLoanCtxt) (pats : List Pat) : GatherLoanCtxt :=
  { g with id_range := pats.foldl (fun r p => r.add p.id) g.id_range }

/-- Runs `gather_pat` over the patterns of one arm. -/
def gather_pats (O : Oracles) (cmt : Cmt) (arm_body_id : Nat) (match_id : Nat) :
    List Pat → GatherLoanCtxt → Except String GatherLoanCtxt
  | [], g => .ok g
  | p :: ps, g =>
      match gather_pat O g cmt p arm_body_id match_id with
      | .error s => .error s
      | .ok g => gather_pats O cmt arm_body_id match_id ps g

/-- The first pass of the `expr_match` arm of `gather_loans_in_expr`:
`gather_pat` for every pattern of every arm, against the shared
discriminant location, with the arm's body id as the enclosing scope. -/
def gather_pats_in_arms (O : Oracles) (cmt : Cmt) (match_id : Nat) :
    Arms → GatherLoanCtxt → Except String GatherLoanCtxt
  | .nil, g => .ok g
  | .cons pats body tl, g =>
      match gather_pats O cmt body.id match_id pats g with
      | .error s => .error s
      | .ok g => gather_pats_in_arms O cmt match_id tl g

mutual

/- `gather_loans_in_expr`: the `visit_expr` hook.  Adds the expression's
id and callee id to the id range, synthesizes the implicit adjustment
borrow if the type checker recorded one, and then dispatches on the
expression form exactly as the original `match ex.node`; the default
visitation of children models `visit::visit_expr`, and for closures the
`visit_fn` hook (`gather_loans_in_fn`) with its push/pop of the closure
body id. -/
def gather_loans_in_expr (O : Oracles) (e : Expr) (g : GatherLoanCtxt) :
    Except String GatherLoanCtxt :=
  match e with
  | .mk eid ecallee espan enode =>
    let g0 := { g with id_range := (g.id_range.add eid).add ecallee }
    match (match O.adjustments eid with
           | some adj => guarantee_adjustments O g0 eid espan adj
           | none => .ok g0) with
    | .error s => .error s
    | .ok gA =>
      match enode with
      | .expr_addr_of m base =>
          -- make sure that the thing we are pointing at stays valid
          -- for the lifetime of the resulting pointer
          let base_cmt := O.cat_expr base.id
          let scope_r := O.expr_ty_region eid
          match guarantee_valid O gA eid espan base_cmt m scope_r with
          | .error s => .error s
          | .ok g1 => gather_loans_in_expr O base g1
      | .expr_match discr arms =>
          let cmt := O.cat_expr discr.id
          match gather_pats_in_arms O cmt eid arms gA with
          | .error s => .error s
          | .ok g1 =>
            match gather_loans_in_expr O discr g1 with
            | .error s => .error s
            | .ok g2 => gather_loans_in_arms O arms g2
      | .expr_index recv arg =>
          if O.method_map eid then
            -- arguments in method calls are always passed by ref
            let scope_r := Region.re_scope eid
            let arg_cmt := O.cat_expr arg.id
            match guarantee_valid O gA arg.id arg.span arg_cmt .m_imm scope_r with
            | .error s => .error s
            | .ok g1 =>
              match gather_loans_in_expr O recv g1 with
              | .error s => .error s
              | .ok g2 => gather_loans_in_expr O arg g2
          else
            match gather_loans_in_expr O recv gA with
            | .error s => .error s
            | .ok g1 => gather_loans_in_expr O arg g1
      | .expr_binary recv arg =>
          if O.method_map eid then
            let scope_r := Region.re_scope eid
            let arg_cmt := O.cat_expr arg.id
            match guarantee_valid O gA arg.id arg.span arg_cmt .m_imm scope_r with
            | .error s => .error s
            | .ok g1 =>
              match gather_loans_in_expr O recv g1 with
              | .error s => .error s
              | .ok g2 => gather_loans_in_expr O arg g2
          else
            match gather_loans_in_expr O recv gA with
            | .error s => .error s
            | .ok g1 => gather_loans_in_expr O arg g1
      | .expr_while cond body =>
          -- during the condition, can only root for the condition
          let g1 := push_repeating_id gA cond.id
          match gather_loans_in_expr O cond g1 with
          | .error s => .error s
          | .ok g2 =>
            match pop_repeating_id g2 cond.id with
            | .error s => .error s
            | .ok g3 =>
              -- during body, can only root for the body
              let g4 := push_repeating_id g3 body.id
              match gather_loans_in_block O body g4 with
              | .error s => .error s
              | .ok g5 => pop_repeating_id g5 body.id
      | .expr_loop body =>
          let g1 := push_repeating_id gA body.id
          match gather_loans_in_block O body g1 with
          | .error s => .error s
          | .ok g2 => pop_repeating_id g2 body.id
      | .expr_fn_block body =>
          -- visit closures as part of the containing item
          let g1 := push_repeating_id gA body.id
          match gather_loans_in_block O body g1 with
          | .error s => .error s
          | .ok g2 => pop_repeating_id g2 body.id
      | .expr_other children =>
          gather_loans_in_expr_list O children gA

/-- Visits a list of sibling expressions in order. -/
def gather_loans_in_expr_list (O : Oracles) (es : ExprList) (g : GatherLoanCtxt) :
    Except String GatherLoanCtxt :=
  match es with
  | .nil => .ok g
  | .cons e tl =>
      match gather_loans_in_expr O e g with
      | .error s => .error s
      | .ok g1 => gather_loans_in_expr_list O tl g1

/-- The second pass over a match's arms (the default visitation): adds
the pattern ids to the id range and visits each arm's body. -/
def gather_loans_in_arms (O : Oracles) (arms : Arms) (g : GatherLoanCtxt) :
    Except String GatherLoanCtxt :=
  match arms with
  | .nil => .ok g
  | .cons pats body tl =>
      let g1 := add_pat_ids g pats
      match gather_loans_in_block O body g1 with
      | .error s => .error s
      | .ok g2 => gather_loans_in_arms O tl g2

/-- `gather_loans_in_block`: the `visit_block` hook.  Adds the block's id
to the id range and visits the block's contents. -/
def gather_loans_in_block (O : Oracles) (b : Blk) (g : GatherLoanCtxt) :
    Except String GatherLoanCtxt :=
  match b with
  | .mk bid stmts =>
      gather_loans_in_expr_list O stmts { g with id_range := g.id_range.add bid }

end

/-- The initial context built by `gather_loans`: empty id range and loan
list, `item_ub` and the singleton `repeating_ids` both set to the id of
the function body's block. -/
def mkGatherCtxt (body : Blk) : GatherLoanCtxt :=
  { id_range := IdRange.max,
    all_loans := [],
    item_ub := body.id,
    repeating_ids := [body.id],
    diags := [],
    used_mut_nodes := [],
    events := [] }

/-- `gather_loans`: the entry point; returns the id range and the loan
sequence of one function body. -/
def gather_loans (O : Oracles) (body : Blk) :
    Except String (IdRange × List Loan) :=
  match gather_loans_in_block O body (mkGatherCtxt body) with
  | .error s => .error s
  | .ok g => .ok (g.id_range, g.all_loans)

/-! ### Frame lemmas for loan synthesis -/

/-- A trace fragment containing no push/pop of the scope stack. -/
def noStackOps (t : List Event) : Prop := ∀ e ∈ t, e.isStackOp = false

theorem noStackOps_nil : noStackOps [] := by
  intro e he
  cases he

theorem noStackOps_lifetime (iu ru sp : Nat) :
    noStackOps [.lifetime iu ru sp] := by
  intro e he
  simp only [List.mem_singleton] at he
  subst he
  rfl

theorem checked_state_fields (O : Oracles) (g : GatherLoanCtxt) (ru sp : Nat)
    (cmt : Cmt) (m : Mutability) (r : Region) :
    (checked_state O g ru sp cmt m r).repeating_ids = g.repeating_ids ∧
    (checked_state O g ru sp cmt m r).item_ub = g.item_ub ∧
    (checked_state O g ru sp cmt m r).all_loans = g.all_loans ∧
    (checked_state O g ru sp cmt m r).used_mut_nodes = g.used_mut_nodes ∧
    (checked_state O g ru sp cmt m r).id_range = g.id_range ∧
    (checked_state O g ru sp cmt m r).events =
      g.events ++ [.lifetime g.item_ub ru sp] ∧
    (checked_state O g ru sp cmt m r).diags =
      g.diags ++ O.guarantee_lifetime g.item_ub ru sp cmt r m ++
        (check_mutability sp cmt m).toList := by
  unfold checked_state
  cases h : check_mutability sp cmt m <;> simp [h]

/-- Loan synthesis never touches the scope stack, `item_ub` or the id
range, and only appends non-stack events to the trace. -/
theorem guarantee_valid_frame {O : Oracles} {g g' : GatherLoanCtxt}
    {bid sp : Nat} {cmt : Cmt} {m : Mutability} {r : Region}
    (h : guarantee_valid O g bid sp cmt m r = .ok g') :
    g'.repeating_ids = g.repeating_ids ∧ g'.item_ub = g.item_ub ∧
      g'.id_range = g.id_range ∧
      ∃ t, g'.events = g.events ++ t ∧ noStackOps t := by
  unfold guarantee_valid at h
  split at h
  · injection h with h
    subst h
    exact ⟨rfl, rfl, rfl, [], by simp, noStackOps_nil⟩
  · rename_i hne
    split at h
    · cases h
    · rename_i ru hru
      obtain ⟨h1, h2, h3, h4, h5, h6, h7⟩ :=
        checked_state_fields O g ru sp cmt m r
      split at h
      · injection h with h
        subst h
        exact ⟨h1, h2, h5, [.lifetime g.item_ub ru sp], h6,
          noStackOps_lifetime _ _ _⟩
      · rename_i lp rs hres
        split at h
        · injection h with h
          subst h
          exact ⟨h1, h2, h5, [.lifetime g.item_ub ru sp], h6,
            noStackOps_lifetime _ _ _⟩
        · cases h
        · rename_i ls hls
          split at h
          · cases h
          · rename_i k hk
            injection h with h
            subst h
            refine ⟨?_, ?_, ?_, [.lifetime g.item_ub ru sp], ?_,
              noStackOps_lifetime _ _ _⟩ <;>
              split <;> simp_all

theorem guarantee_adjustments_frame {O : Oracles} {g g' : GatherLoanCtxt}
    {eid espan : Nat} {adj : AutoAdjustment}
    (h : guarantee_adjustments O g eid espan adj = .ok g') :
    g'.repeating_ids = g.repeating_ids ∧ g'.item_ub = g.item_ub ∧
      g'.id_range = g.id_range ∧
      ∃ t, g'.events = g.events ++ t ∧ noStackOps t := by
  unfold guarantee_adjustments at h
  split at h
  · injection h with h
    subst h
    exact ⟨rfl, rfl, rfl, [], by simp, noStackOps_nil⟩
  · injection h with h
    subst h
    exact ⟨rfl, rfl, rfl, [], by simp, noStackOps_nil⟩
  · split at h
    · exact guarantee_valid_frame h
    · exact guarantee_valid_frame h
    · exact guarantee_valid_frame h
    · exact guarantee_valid_frame h
    · injection h with h
      subst h
      exact ⟨rfl, rfl, rfl, [], by simp, noStackOps_nil⟩

theorem gather_pat_pair_frame {O : Oracles} {g g' : GatherLoanCtxt}
    {abid mid : Nat} {cmt : Cmt} {pat : Pat}
    (h : gather_pat_pair O abid mid g cmt pat = .ok g') :
    g'.repeating_ids = g.repeating_ids ∧ g'.item_ub = g.item_ub ∧
      g'.id_range = g.id_range ∧
      ∃ t, g'.events = g.events ++ t ∧ noStackOps t := by
  unfold gather_pat_pair at h
  split at h
  · split at h
    · split at h
      · dsimp only at h
        split at h
        · exact guarantee_valid_frame h
        · exact guarantee_valid_frame h
      · injection h with h
        subst h
        exact ⟨rfl, rfl, rfl, [], by simp, noStackOps_nil⟩
      · injection h with h
        subst h
        exact ⟨rfl, rfl, rfl, [], by simp, noStackOps_nil⟩
    · injection h with h
      subst h
      exact ⟨rfl, rfl, rfl, [], by simp, noStackOps_nil⟩
  · split at h
    · cases h
    · exact guarantee_valid_frame h
  · injection h with h
    subst h
    exact ⟨rfl, rfl, rfl, [], by simp, noStackOps_nil⟩

theorem gather_pat_pairs_frame {O : Oracles} {abid mid : Nat} :
    ∀ (prs : List (Cmt × Pat)) (g g' : GatherLoanCtxt),
      gather_pat_pairs O abid mid prs g = .ok g' →
      g'.repeating_ids = g.repeating_ids ∧ g'.item_ub = g.item_ub ∧
        g'.id_range = g.id_range ∧
        ∃ t, g'.events = g.events ++ t ∧ noStackOps t := by
  intro prs
  induction prs with
  | nil =>
      intro g g' h
      injection h with h
      subst h
      exact ⟨rfl, rfl, rfl, [], by simp, noStackOps_nil⟩
  | cons pr rest ih =>
      intro g g' h
      obtain ⟨cmt, pat⟩ := pr
      unfold gather_pat_pairs at h
      split at h
      · cases h
      · rename_i g1 h1
        obtain ⟨a1, b1, c1, t1, e1, n1⟩ := gather_pat_pair_frame h1
        obtain ⟨a2, b2, c2, t2, e2, n2⟩ := ih g1 g' h
        refine ⟨a2.trans a1, b2.trans b1, c2.trans c1, t1 ++ t2, ?_, ?_⟩
        · rw [e2, e1, List.append_assoc]
        · intro e he
          rcases List.mem_append.mp he with h' | h'
          · exact n1 e h'
          · exact n2 e h'

theorem gather_pat_frame {O : Oracles} {g g' : GatherLoanCtxt}
    {dc : Cmt} {rp : Pat} {abid mid : Nat}
    (h : gather_pat O g dc rp abid mid = .ok g') :
    g'.repeating_ids = g.repeating_ids ∧ g'.item_ub = g.item_ub ∧
      g'.id_range = g.id_range ∧
      ∃ t, g'.events = g.events ++ t ∧ noStackOps t :=
  gather_pat_pairs_frame _ _ _ h

theorem gather_pats_frame {O : Oracles} {cmt : Cmt} {abid mid : Nat} :
    ∀ (pats : List Pat) (g g' : GatherLoanCtxt),
      gather_pats O cmt abid mid pats g = .ok g' →
      g'.repeating_ids = g.repeating_ids ∧ g'.item_ub = g.item_ub ∧
        g'.id_range = g.id_range ∧
        ∃ t, g'.events = g.events ++ t ∧ noStackOps t := by
  intro pats
  induction pats with
  | nil =>
      intro g g' h
      injection h with h
      subst h
      exact ⟨rfl, rfl, rfl, [], by simp, noStackOps_nil⟩
  | cons p ps ih =>
      intro g g' h
      unfold gather_pats at h
      split at h
      · cases h
      · rename_i g1 h1
        obtain ⟨a1, b1, c1, t1, e1, n1⟩ := gather_pat_frame h1
        obtain ⟨a2, b2, c2, t2, e2, n2⟩ := ih g1 g' h
        refine ⟨a2.trans a1, b2.trans b1, c2.trans c1, t1 ++ t2, ?_, ?_⟩
        · rw [e2, e1, List.append_assoc]
        · intro e he
          rcases List.mem_append.mp he with h' | h'
          · exact n1 e h'
          · exact n2 e h'

theorem gather_pats_in_arms_frame {O : Oracles} {cmt : Cmt} {mid : Nat} :
    ∀ (arms : Arms) (g g' : GatherLoanCtxt),
      gather_pats_in_arms O cmt mid arms g = .ok g' →
      g'.repeating_ids = g.repeating_ids ∧ g'.item_ub = g.item_ub ∧
        g'.id_range = g.id_range ∧
        ∃ t, g'.events = g.events ++ t ∧ noStackOps t
  | .nil, g, g', h => by
      injection h with h
      subst h
      exact ⟨rfl, rfl, rfl, [], by simp, noStackOps_nil⟩
  | .cons pats body tl, g, g', h => by
      unfold gather_pats_in_arms at h
      split at h
      · cases h
      · rename_i g1 h1
        obtain ⟨a1, b1, c1, t1, e1, n1⟩ := gather_pats_frame pats g g1 h1
        obtain ⟨a2, b2, c2, t2, e2, n2⟩ := gather_pats_in_arms_frame tl g1 g' h
        refine ⟨a2.trans a1, b2.trans b1, c2.trans c1, t1 ++ t2, ?_, ?_⟩
        · rw [e2, e1, List.append_assoc]
        · intro e he
          rcases List.mem_append.mp he with h' | h'
          · exact n1 e h'
          · exact n2 e h'

/-! ### The scope-stack operations -/

theorem push_repeating_id_spec (g : GatherLoanCtxt) (id : Nat) :
    (push_repeating_id g id).repeating_ids = g.repeating_ids ++ [id] ∧
    (push_repeating_id g id).item_ub = g.item_ub ∧
    (push_repeating_id g id).events = g.events ++ [.push id] :=
  ⟨rfl, rfl, rfl⟩

/-- `pop_repeating_id` succeeds exactly when the top of the stack is the
id being popped, and then removes exactly that id. -/
theorem pop_repeating_id_spec (g : GatherLoanCtxt) (id : Nat)
    (g' : GatherLoanCtxt) :
    pop_repeating_id g id = .ok g' ↔
      (g.repeating_ids.getLast? = some id ∧
       g' = { g with repeating_ids := g.repeating_ids.dropLast,
                     events := g.events ++ [.pop id] }) := by
  unfold pop_repeating_id
  cases h : g.repeating_ids.getLast? with
  | none => simp
  | some popped =>
      by_cases hid : id = popped
      · subst hid
        simp [eq_comm]
      · simp [hid, Ne.symm hid]

/-! ### Preservation of the scope stack by the traversal -/

/-- Relates a state to a later state of the same visit: the scope stack
and `item_ub` are unchanged and the trace has only grown. -/
def StackFrame (g g' : GatherLoanCtxt) : Prop :=
  g'.repeating_ids = g.repeating_ids ∧ g'.item_ub = g.item_ub ∧
    ∃ t, g'.events = g.events ++ t

theorem StackFrame.rfl (g : GatherLoanCtxt) : StackFrame g g :=
  ⟨Eq.refl _, Eq.refl _, [], by simp⟩

theorem StackFrame.trans {g1 g2 g3 : GatherLoanCtxt}
    (h12 : StackFrame g1 g2) (h23 : StackFrame g2 g3) : StackFrame g1 g3 := by
  obtain ⟨a1, b1, t1, e1⟩ := h12
  obtain ⟨a2, b2, t2, e2⟩ := h23
  exact ⟨a2.trans a1, b2.trans b1, t1 ++ t2, by rw [e2, e1, List.append_assoc]⟩

theorem StackFrame.of_guarantee_valid {O : Oracles} {g g' : GatherLoanCtxt}
    {bid sp : Nat} {cmt : Cmt} {m : Mutability} {r : Region}
    (h : guarantee_valid O g bid sp cmt m r = .ok g') : StackFrame g g' := by
  obtain ⟨a, b, _, t, e, _⟩ := guarantee_valid_frame h
  exact ⟨a, b, t, e⟩

theorem StackFrame.of_id_range (g : GatherLoanCtxt) (r : IdRange) :
    StackFrame g { g with id_range := r } :=
  ⟨Eq.refl _, Eq.refl _, [], by simp⟩

theorem StackFrame.of_add_pat_ids (g : GatherLoanCtxt) (pats : List Pat) :
    StackFrame g (add_pat_ids g pats) :=
  ⟨Eq.refl _, Eq.refl _, [], by simp [add_pat_ids]⟩

theorem StackFrame.of_gather_pats_in_arms {O : Oracles} {cmt : Cmt}
    {mid : Nat} {arms : Arms} {g g' : GatherLoanCtxt}
    (h : gather_pats_in_arms O cmt mid arms g = .ok g') : StackFrame g g' := by
  obtain ⟨a, b, _, t, e, _⟩ := gather_pats_in_arms_frame arms g g' h
  exact ⟨a, b, t, e⟩

/-- A visit wrapped in `push id ... pop id` leaves the scope stack as it
was before the push. -/
theorem StackFrame.push_pop {g g2 g3 : GatherLoanCtxt} {c : Nat}
    (hvisit : StackFrame (push_repeating_id g c) g2)
    (hpop : pop_repeating_id g2 c = .ok g3) : StackFrame g g3 := by
  obtain ⟨a, b, t, e⟩ := hvisit
  simp only [push_repeating_id] at a b e
  rw [pop_repeating_id_spec] at hpop
  obtain ⟨-, hg3⟩ := hpop
  subst hg3
  refine ⟨?_, b, [Event.push c] ++ t ++ [Event.pop c], ?_⟩
  · show g2.repeating_ids.dropLast = g.repeating_ids
    rw [a]
    exact List.dropLast_concat ..
  · show g2.events ++ [Event.pop c] = g.events ++ ([Event.push c] ++ t ++ [Event.pop c])
    rw [e]
    simp [List.append_assoc]

mutual

/- The visit of any expression restores `repeating_ids` exactly, keeps
`item_ub`, and only appends to the event trace. -/
theorem gather_loans_in_expr_frame (O : Oracles) (e : Expr) :
    ∀ (g g' : GatherLoanCtxt),
      gather_loans_in_expr O e g = .ok g' → StackFrame g g' := by
  match e with
  | .mk eid ecallee espan enode =>
    intro g g' h
    unfold gather_loans_in_expr at h
    dsimp only at h
    split at h
    · cases h
    · rename_i gA hadj
      have hfA : StackFrame g gA := by
        refine (StackFrame.of_id_range g ((g.id_range.add eid).add ecallee)).trans ?_
        cases hO : O.adjustments eid with
        | none =>
            rw [hO] at hadj
            injection hadj with hadj
            subst hadj
            exact StackFrame.rfl _
        | some adj =>
            rw [hO] at hadj
            obtain ⟨a, b, _, t, e', _⟩ := guarantee_adjustments_frame hadj
            exact ⟨a, b, t, e'⟩
      clear hadj
      match enode with
      | .expr_addr_of m base =>
          dsimp only at h
          split at h
          · cases h
          · rename_i g1 h1
            exact hfA.trans (StackFrame.of_guarantee_valid h1 |>.trans
              (gather_loans_in_expr_frame O base g1 g' h))
      | .expr_match discr arms =>
          dsimp only at h
          split at h
          · cases h
          · rename_i g1 h1
            split at h
            · cases h
            · rename_i g2 h2
              exact hfA.trans ((StackFrame.of_gather_pats_in_arms h1).trans
                ((gather_loans_in_expr_frame O discr g1 g2 h2).trans
                  (gather_loans_in_arms_frame O arms g2 g' h)))
      | .expr_index recv arg =>
          dsimp only at h
          split at h
          · split at h
            · cases h
            · rename_i g1 h1
              split at h
              · cases h
              · rename_i g2 h2
                exact hfA.trans ((StackFrame.of_guarantee_valid h1).trans
                  ((gather_loans_in_expr_frame O recv g1 g2 h2).trans
                    (gather_loans_in_expr_frame O arg g2 g' h)))
          · split at h
            · cases h
            · rename_i g1 h1
              exact hfA.trans ((gather_loans_in_expr_frame O recv gA g1 h1).trans
                (gather_loans_in_expr_frame O arg g1 g' h))
      | .expr_binary recv arg =>
          dsimp only at h
          split at h
          · split at h
            · cases h
            · rename_i g1 h1
              split at h
              · cases h
              · rename_i g2 h2
                exact hfA.trans ((StackFrame.of_guarantee_valid h1).trans
                  ((gather_loans_in_expr_frame O recv g1 g2 h2).trans
                    (gather_loans_in_expr_frame O arg g2 g' h)))
          · split at h
            · cases h
            · rename_i g1 h1
              exact hfA.trans ((gather_loans_in_expr_frame O recv gA g1 h1).trans
                (gather_loans_in_expr_frame O arg g1 g' h))
      | .expr_while cond body =>
          dsimp only at h
          split at h
          · cases h
          · rename_i g2 h2
            split at h
            · cases h
            · rename_i g3 h3
              split at h
              · cases h
              · rename_i g5 h5
                have f1 : StackFrame gA g3 :=
                  StackFrame.push_pop
                    (gather_loans_in_expr_frame O cond _ g2 h2) h3
                have f2 : StackFrame g3 g' :=
                  StackFrame.push_pop
                    (gather_loans_in_block_frame O body _ g5 h5) h
                exact hfA.trans (f1.trans f2)
      | .expr_loop body =>
          dsimp only at h
          split at h
          · cases h
          · rename_i g2 h2
            exact hfA.trans (StackFrame.push_pop
              (gather_loans_in_block_frame O body _ g2 h2) h)
      | .expr_fn_block body =>
          dsimp only at h
          split at h
          · cases h
          · rename_i g2 h2
            exact hfA.trans (StackFrame.push_pop
              (gather_loans_in_block_frame O body _ g2 h2) h)
      | .expr_other children =>
          exact hfA.trans (gather_loans_in_expr_list_frame O children gA g' h)

theorem gather_loans_in_expr_list_frame (O : Oracles) (es : ExprList) :
    ∀ (g g' : GatherLoanCtxt),
      gather_loans_in_expr_list O es g = .ok g' → StackFrame g g' := by
  match es with
  | .nil =>
      intro g g' h
      injection h with h
      subst h
      exact StackFrame.rfl _
  | .cons e tl =>
      intro g g' h
      unfold gather_loans_in_expr_list at h
      split at h
      · cases h
      · rename_i g1 h1
        exact (gather_loans_in_expr_frame O e g g1 h1).trans
          (gather_loans_in_expr_list_frame O tl g1 g' h)

theorem gather_loans_in_arms_frame (O : Oracles) (arms : Arms) :
    ∀ (g g' : GatherLoanCtxt),
      gather_loans_in_arms O arms g = .ok g' → StackFrame g g' := by
  match arms with
  | .nil =>
      intro g g' h
      injection h with h
      subst h
      exact StackFrame.rfl _
  | .cons pats body tl =>
      intro g g' h
      unfold gather_loans_in_arms at h
      dsimp only at h
      split at h
      · cases h
      · rename_i g2 h2
        exact (StackFrame.of_add_pat_ids g pats).trans
          ((gather_loans_in_block_frame O body _ g2 h2).trans
            (gather_loans_in_arms_frame O tl g2 g' h))

theorem gather_loans_in_block_frame (O : Oracles) (b : Blk) :
    ∀ (g g' : GatherLoanCtxt),
      gather_loans_in_block O b g = .ok g' → StackFrame g g' := by
  match b with
  | .mk bid stmts =>
      intro g g' h
      unfold gather_loans_in_block at h
      exact (StackFrame.of_id_range g _).trans
        (gather_loans_in_expr_list_frame O stmts _ g' h)

end

/-! ### Concrete fixtures used by witnesses and counterexamples -/

/-- A concrete oracle assignment: every scope is a subscope of every
other, the restriction engine never requires a restriction, the lifetime
checker reports nothing, and no expression has an adjustment. -/
def oracleBase : Oracles :=
  { is_subscope_of := fun _ _ => true
    encl_scope := fun _ => 0
    is_subregion_of := fun _ _ => false
    compute_restrictions := fun _ _ _ => .Safe
    guarantee_lifetime := fun _ _ _ _ _ _ => []
    adjustments := fun _ => none
    method_map := fun _ => false
    cat_expr := fun i => .leaf i 0 .McDeclared 0
    cat_expr_autoderefd := fun i _ => .leaf i 0 .McDeclared 0
    cat_index := fun _ c _ => c
    cat_deref_fn := fun _ c _ => c
    cat_pattern := fun c p => [(c, p)]
    expr_ty_region := fun _ => .re_scope 0
    pat_ty_region := fun _ => .re_scope 0
    node_type := fun _ => .ty_other
    pat_is_binding := fun _ => true }

/-- `oracleBase`, but the restriction engine always requires a
restriction rooted at local 3. -/
def oracleSafeIf : Oracles :=
  { oracleBase with
    compute_restrictions := fun _ _ _ => .SafeIf (.LpVar 3) RESTR_MUTATE }

/-- `oracleSafeIf`, but every local's enclosing lexical scope is 7. -/
def oracle7 : Oracles :=
  { oracleSafeIf with encl_scope := fun _ => 7 }

/-- A fresh traversal context whose function body has id 0. -/
def ctxt0 : GatherLoanCtxt :=
  { id_range := IdRange.max
    all_loans := []
    item_ub := 0
    repeating_ids := [0]
    diags := []
    used_mut_nodes := []
    events := [] }

/-- A location with mutable (declared) provenance. -/
def cmt0 : Cmt := .leaf 2 5 .McDeclared 0

/-- A location with immutable provenance (e.g. a field of a local
declared immutable). -/
def cmtImm : Cmt := .leaf 2 5 .McImmutable 0

/-- Extracts the resulting state of a successful synthesis run, with a
fallback for the error case. -/
def exOut (g : GatherLoanCtxt) : Except String GatherLoanCtxt → GatherLoanCtxt
  | .ok g' => g'
  | .error _ => g

def loan_dummy : Loan :=
  { index := 0, loan_path := .LpVar 0, cmt := .leaf 0 0 .McImmutable 0,
    mutbl := .m_const, gen_scope := 0, kill_scope := 0, span := 0,
    restrictions := RESTR_EMPTY }

/-! ### The claims -/

/-- C3: the mutability check reports a violation exactly for an
Exclusive-Mutable (`m_mutbl`) request against a location whose
provenance is not mutable, and for a Shared-Immutable (`m_imm`) request
against a location with read-only provenance; a Shared-Readonly
(`m_const`) request never reports a violation, for any provenance. -/
theorem check_mutability_reports_iff (sp : Nat) (cmt : Cmt) (m : Mutability) :
    (check_mutability sp cmt m).isSome = true ↔
      ((m = .m_mutbl ∧ cmt.mutbl.is_mutable = false) ∨
       (m = .m_imm ∧ cmt.mutbl = .McReadOnly)) := by
  cases m <;> cases h : cmt.mutbl <;>
    simp [check_mutability, h, MutabilityCategory.is_mutable]

/-- C5: a borrow under the universally-empty region makes synthesis
return immediately with the state unchanged — no Loan, no diagnostic,
and no recorded call to the lifetime checker (so none of the lifetime,
mutability or restriction checks has run). -/
theorem guarantee_valid_empty_region (O : Oracles) (g : GatherLoanCtxt)
    (borrow_id borrow_span : Nat) (cmt : Cmt) (m : Mutability) :
    guarantee_valid O g borrow_id borrow_span cmt m .re_empty = .ok g := by
  unfold guarantee_valid
  simp

theorem append_loan_exists {A B : List Loan} {ln : Loan} (h : A = B) :
    ∃ l, A ++ [ln] = B ++ [l] :=
  ⟨ln, by rw [h]⟩

theorem guarantee_valid_loans_core {O : Oracles} {g g' : GatherLoanCtxt}
    {bid sp : Nat} {cmt : Cmt} {m : Mutability} {r : Region}
    (h : guarantee_valid O g bid sp cmt m r = .ok g') :
    ((∃ l, g'.all_loans = g.all_loans ++ [l]) ↔
      (r ≠ .re_empty ∧
       (∃ lp rs, O.compute_restrictions sp cmt (restriction_set m) = .SafeIf lp rs) ∧
       (∃ s, loan_scope_of r = .scope s))) ∧
    (O.compute_restrictions sp cmt (restriction_set m) = .Safe →
      g'.all_loans = g.all_loans) := by
  unfold guarantee_valid at h
  split at h
  · rename_i hemp
    injection h with h
    subst h
    constructor
    · simp [List.self_eq_append_right, hemp]
    · intro _
      rfl
  · rename_i hne
    split at h
    · cases h
    · rename_i ru hru
      obtain ⟨h1, h2, h3, h4, h5, h6, h7⟩ := checked_state_fields O g ru sp cmt m r
      split at h
      · rename_i hres
        injection h with h
        subst h
        constructor
        · simp [h3, List.self_eq_append_right, hres]
        · intro _
          exact h3
      · rename_i lp rs hres
        split at h
        · rename_i hsc
          injection h with h
          subst h
          constructor
          · simp only [h3, List.self_eq_append_right]
            constructor
            · rintro ⟨l, hl⟩
              simp at hl
            · rintro ⟨-, -, s, hs⟩
              rw [hsc] at hs
              cases hs
          · intro hsafe
            rw [hres] at hsafe
            cases hsafe
        · cases h
        · rename_i ls hls
          split at h
          · cases h
          · rename_i k hk
            injection h with h
            subst h
            constructor
            · constructor
              · intro _
                exact ⟨hne, ⟨lp, rs, hres⟩, ls, hls⟩
              · intro _
                exact append_loan_exists (by split <;> simp [h3])
            · intro hsafe
              rw [hres] at hsafe
              cases hsafe

/-- C1 (amended): in a successful synthesis run, a Loan is appended to
the output sequence exactly when the region is not the empty region, the
Restriction Engine returns `SafeIf`, and the region resolves to a
concrete scope (a lexical or free region); in particular, when the
Engine returns `Safe` no Loan is emitted, and with a `SafeIf` result
under a static region no Loan is emitted either. -/
theorem guarantee_valid_loan_iff {O : Oracles} {g g' : GatherLoanCtxt}
    {bid sp : Nat} {cmt : Cmt} {m : Mutability} {r : Region}
    (h : guarantee_valid O g bid sp cmt m r = .ok g') :
    ((∃ l, g'.all_loans = g.all_loans ++ [l]) ↔
      (r ≠ .re_empty ∧
       (∃ lp rs, O.compute_restrictions sp cmt (restriction_set m) = .SafeIf lp rs) ∧
       (∃ s, loan_scope_of r = .scope s))) ∧
    (O.compute_restrictions sp cmt (restriction_set m) = .Safe →
      g'.all_loans = g.all_loans) :=
  guarantee_valid_loans_core h

/-- C1, counterexample to the claim as stated: with a restriction-engine
result of `SafeIf` but a static loan region, synthesis succeeds and
emits no Loan, so "a Loan is appended if and only if the Restriction
Engine returns `SafeIf`" fails in the only-if-to-if direction. -/
theorem guarantee_valid_static_safeif_no_loan :
    oracleSafeIf.compute_restrictions 5 cmt0 (restriction_set .m_imm) =
      .SafeIf (.LpVar 3) RESTR_MUTATE ∧
    (guarantee_valid oracleSafeIf ctxt0 1 5 cmt0 .m_imm .re_static).map
      (fun s => s.all_loans) = .ok [] :=
  ⟨rfl, rfl⟩

/-- The state of a successful run of synthesis in which the restriction
engine reports `Safe`. -/
def c1Out : GatherLoanCtxt :=
  exOut ctxt0 (guarantee_valid oracleBase ctxt0 1 5 cmt0 .m_imm (.re_scope 7))

/-- Witness for C1 (amended): a concrete `Safe` run leaves the loan
sequence unchanged. -/
theorem guarantee_valid_loan_iff_witness : c1Out.all_loans = ctxt0.all_loans :=
  (guarantee_valid_loan_iff
    (show guarantee_valid oracleBase ctxt0 1 5 cmt0 .m_imm (.re_scope 7) =
        .ok c1Out from rfl)).2 rfl

theorem compute_kill_scope_some {O : Oracles} {ls k : Nat} {lp : LoanPath}
    (h : compute_kill_scope O ls lp = some k) :
    (k = O.encl_scope lp.node_id ∧
      O.is_subscope_of (O.encl_scope lp.node_id) ls = true) ∨
    (k = ls ∧ O.is_subscope_of ls (O.encl_scope lp.node_id) = true ∧
      O.is_subscope_of (O.encl_scope lp.node_id) ls = false) := by
  unfold compute_kill_scope at h
  dsimp only at h
  split at h
  · rename_i h1
    injection h with h
    exact .inl ⟨h.symm, h1⟩
  · split at h
    · rename_i h1 h2
      injection h with h
      exact .inr ⟨h.symm, h2, by simpa using h1⟩
    · cases h

/-- C2 (amended): for every Loan produced by synthesis, at least one of
the two kill-scope cases holds — never neither: when the lexical scope
of the loan path's root local is a subscope of the loan's resolved
scope, the kill scope is that lexical scope (this branch is also taken
when both containment directions hold, e.g. when the two scopes
coincide, so the two cases are not mutually exclusive); otherwise the
kill scope is the loan scope and the loan scope is a subscope of the
lexical scope; and if neither containment direction holds, synthesis
aborts with the kill-scope assertion failure (an internal defect). -/
theorem compute_kill_scope_cases :
    (∀ (O : Oracles) (g g' : GatherLoanCtxt) (bid sp : Nat) (cmt : Cmt)
       (m : Mutability) (r : Region) (l : Loan),
       guarantee_valid O g bid sp cmt m r = .ok g' →
       g'.all_loans = g.all_loans ++ [l] →
       ∃ s, loan_scope_of r = .scope s ∧
         ((l.kill_scope = O.encl_scope l.loan_path.node_id ∧
           O.is_subscope_of (O.encl_scope l.loan_path.node_id) s = true) ∨
          (l.kill_scope = s ∧
           O.is_subscope_of s (O.encl_scope l.loan_path.node_id) = true ∧
           O.is_subscope_of (O.encl_scope l.loan_path.node_id) s = false))) ∧
    (∀ (O : Oracles) (ls : Nat) (lp : LoanPath),
       compute_kill_scope O ls lp = none ↔
         (O.is_subscope_of (O.encl_scope lp.node_id) ls = false ∧
          O.is_subscope_of ls (O.encl_scope lp.node_id) = false)) ∧
    (∀ (O : Oracles) (g : GatherLoanCtxt) (bid sp : Nat) (cmt : Cmt)
       (m : Mutability) (r : Region) (lp : LoanPath) (rs : RestrictionSet)
       (ru s : Nat),
       g.repeating_ids.getLast? = some ru →
       O.compute_restrictions sp cmt (restriction_set m) = .SafeIf lp rs →
       loan_scope_of r = .scope s →
       compute_kill_scope O s lp = none →
       r ≠ .re_empty →
       guarantee_valid O g bid sp cmt m r =
         .error "assertion failed: is_subscope_of(loan_scope, lexical_scope)") := by
  refine ⟨?_, ?_, ?_⟩
  · intro O g g' bid sp cmt m r l h hl
    unfold guarantee_valid at h
    split at h
    · injection h with h
      subst h
      simp [List.self_eq_append_right] at hl
    · rename_i hne
      split at h
      · cases h
      · rename_i ru hru
        obtain ⟨h1, h2, h3, h4, h5, h6, h7⟩ := checked_state_fields O g ru sp cmt m r
        split at h
        · injection h with h
          subst h
          rw [h3] at hl
          simp [List.self_eq_append_right] at hl
        · rename_i lp rs hres
          split at h
          · injection h with h
            subst h
            rw [h3] at hl
            simp [List.self_eq_append_right] at hl
          · cases h
          · rename_i ls hls
            split at h
            · cases h
            · rename_i k hk
              injection h with h
              subst h
              have hg3 : (if m = Mutability.m_mutbl then
                  { checked_state O g ru sp cmt m r with
                      used_mut_nodes :=
                        (checked_state O g ru sp cmt m r).used_mut_nodes ++
                          mark_loan_path_as_mutated lp }
                  else checked_state O g ru sp cmt m r).all_loans =
                    g.all_loans := by
                split <;> simp [h3]
              rw [show (∀ (y : GatherLoanCtxt) (ln : Loan),
                    ({ y with all_loans := y.all_loans ++ [ln] } :
                      GatherLoanCtxt).all_loans = y.all_loans ++ [ln])
                  from fun _ _ => rfl] at hl
              rw [hg3] at hl
              have hlan := List.append_cancel_left hl
              injection hlan with hlan
              subst hlan
              exact ⟨ls, hls, by simpa using compute_kill_scope_some hk⟩
  · intro O ls lp
    unfold compute_kill_scope
    dsimp only
    constructor
    · intro h
      split at h
      · cases h
      · split at h
        · cases h
        · rename_i h1 h2
          exact ⟨by simpa using h1, by simpa using h2⟩
    · rintro ⟨h1, h2⟩
      rw [if_neg (by simp [h1]), if_neg (by simp [h2])]
  · intro O g bid sp cmt m r lp rs ru s hru hres hsc hk hne
    unfold guarantee_valid
    rw [if_neg hne]
    simp only [hru, hres, hsc, hk]

/-- C2, counterexample to the claim as stated: a concrete run producing
a Loan whose loan scope and lexical scope coincide (both 7) with the
subscope relation holding in both directions, so the loan's kill scope
(7) satisfies both of the two cases simultaneously — "never both"
fails. -/
theorem compute_kill_scope_both_directions :
    (guarantee_valid oracle7 ctxt0 1 5 cmt0 .m_imm (.re_scope 7)).map
      (fun st => st.all_loans.map (fun l => (l.kill_scope, l.loan_path))) =
        .ok [(7, .LpVar 3)] ∧
    oracle7.encl_scope (LoanPath.node_id (.LpVar 3)) = 7 ∧
    loan_scope_of (.re_scope 7) = .scope 7 ∧
    oracle7.is_subscope_of 7 7 = true :=
  ⟨rfl, rfl, rfl, rfl⟩

/-- The state of a concrete synthesis run that produces a Loan. -/
def c2Out : GatherLoanCtxt :=
  exOut ctxt0 (guarantee_valid oracle7 ctxt0 1 5 cmt0 .m_imm (.re_scope 7))

/-- That run's produced Loan. -/
def c2loan : Loan := c2Out.all_loans.getLastD loan_dummy

/-- Witness for C2 (amended), at the concrete run `c2Out`. -/
theorem compute_kill_scope_cases_witness : c2loan.kill_scope = 7 := by
  obtain ⟨s, hs, hd⟩ :=
    compute_kill_scope_cases.1 oracle7 ctxt0 c2Out 1 5 cmt0 .m_imm
      (.re_scope 7) c2loan rfl rfl
  have hs7 : s = 7 := by
    simp [loan_scope_of] at hs
    exact hs.symm
  rcases hd with ⟨h1, -⟩ | ⟨h1, -, -⟩
  · rw [h1]
    rfl
  · rw [h1, hs7]

/-- In any successful synthesis run past the empty-region shortcut, the
diagnostics grow by exactly the lifetime checker's reports followed by
the mutability check's report (if any). -/
theorem guarantee_valid_diags {O : Oracles} {g g' : GatherLoanCtxt}
    {bid sp : Nat} {cmt : Cmt} {m : Mutability} {r : Region} {ru : Nat}
    (hru : g.repeating_ids.getLast? = some ru)
    (h : guarantee_valid O g bid sp cmt m r = .ok g')
    (hne : r ≠ .re_empty) :
    g'.diags = g.diags ++ O.guarantee_lifetime g.item_ub ru sp cmt r m ++
      (check_mutability sp cmt m).toList := by
  obtain ⟨h1, h2, h3, h4, h5, h6, h7⟩ := checked_state_fields O g ru sp cmt m r
  unfold guarantee_valid at h
  rw [if_neg hne] at h
  simp only [hru] at h
  split at h
  · injection h with h
    subst h
    exact h7
  · split at h
    · injection h with h
      subst h
      exact h7
    · cases h
    · split at h
      · cases h
      · injection h with h
        subst h
        refine Eq.trans ?_ h7
        split <;> rfl

/-- Whenever the mutability check reports, its diagnostic is the
mutability-violation error for the borrow span, the location and the
requested mutability. -/
theorem check_mutability_some_shape {sp : Nat} {cmt : Cmt} {m : Mutability}
    {e : BckError} (h : check_mutability sp cmt m = some e) :
    e = ⟨sp, cmt, .err_mutbl m⟩ := by
  unfold check_mutability at h
  split at h
  · cases h
  · split at h
    all_goals first
      | exact (Option.some.inj h).symm
      | cases h
  · split at h
    all_goals first
      | exact (Option.some.inj h).symm
      | cases h

/-- C4 (amended): whenever a borrow request fails the mutability check —
whether an Exclusive-Mutable request against non-mutable provenance or a
Shared-Immutable request against read-only provenance — exactly one
mutability-violation diagnostic, carrying the borrow span, the location
and the requested mutability, is appended (beyond whatever the lifetime
checker itself reported), and synthesis continues best-effort: a Loan is
still emitted exactly when the Restriction Engine requires a restriction
and the region resolves to a concrete scope. -/
theorem guarantee_valid_mutability_failure {O : Oracles} {g g' : GatherLoanCtxt}
    {bid sp : Nat} {cmt : Cmt} {m : Mutability} {r : Region} {ru : Nat}
    {e : BckError}
    (hm : check_mutability sp cmt m = some e)
    (hru : g.repeating_ids.getLast? = some ru)
    (h : guarantee_valid O g bid sp cmt m r = .ok g')
    (hne : r ≠ .re_empty) :
    g'.diags = g.diags ++
      O.guarantee_lifetime g.item_ub ru sp cmt r m ++
        [⟨sp, cmt, .err_mutbl m⟩] ∧
    ((∃ l, g'.all_loans = g.all_loans ++ [l]) ↔
      ((∃ lp rs, O.compute_restrictions sp cmt (restriction_set m) =
          .SafeIf lp rs) ∧
       ∃ s, loan_scope_of r = .scope s)) := by
  constructor
  · rw [guarantee_valid_diags hru h hne, hm, check_mutability_some_shape hm]
    rfl
  · have hcore := guarantee_valid_loans_core h
    rw [hcore.1]
    simp [hne]

/-- C4, counterexample to the claim as stated: an Exclusive-Mutable
borrow of a location with immutable provenance (a field of a local
declared immutable), with the restriction engine requiring a
restriction: exactly one mutability-violation diagnostic is reported,
but one Loan — not zero — is emitted for that borrow. -/
theorem guarantee_valid_mutability_failure_cex :
    (guarantee_valid oracleSafeIf ctxt0 1 5 cmtImm .m_mutbl (.re_scope 7)).map
      (fun st => (st.diags.map BckError.code, st.all_loans.length)) =
        .ok ([.err_mutbl .m_mutbl], 1) :=
  rfl

/-- The state of the concrete failing-mutability run (Exclusive-Mutable
against immutable provenance). -/
def c4Out : GatherLoanCtxt :=
  exOut ctxt0 (guarantee_valid oracleSafeIf ctxt0 1 5 cmtImm .m_mutbl (.re_scope 7))

/-- A location with read-only provenance. -/
def cmtRO : Cmt := .leaf 2 5 .McReadOnly 0

/-- The state of the concrete failing-mutability run (Shared-Immutable
against read-only provenance). -/
def c4OutRO : GatherLoanCtxt :=
  exOut ctxt0 (guarantee_valid oracleSafeIf ctxt0 1 5 cmtRO .m_imm (.re_scope 7))

/-- Witness for C4 (amended), at two concrete runs covering both failure
modes of the mutability check. -/
theorem guarantee_valid_mutability_failure_witness :
    c4Out.diags = [⟨5, cmtImm, .err_mutbl .m_mutbl⟩] ∧
    c4OutRO.diags = [⟨5, cmtRO, .err_mutbl .m_imm⟩] := by
  constructor
  · have h := @guarantee_valid_mutability_failure oracleSafeIf ctxt0 c4Out 1 5
      cmtImm .m_mutbl (.re_scope 7) 0 ⟨5, cmtImm, .err_mutbl .m_mutbl⟩
      rfl rfl rfl (by decide)
    simpa using h.1
  · have h := @guarantee_valid_mutability_failure oracleSafeIf ctxt0 c4OutRO 1 5
      cmtRO .m_imm (.re_scope 7) 0 ⟨5, cmtRO, .err_mutbl .m_imm⟩
      rfl rfl rfl (by decide)
    simpa using h.1

/-- C6: resolving the loan region to a concrete scope id after the
Restriction Engine requires a restriction: a lexical scope region maps
to its node id and a free region maps to its scope id; a static region
makes synthesis return successfully with no Loan and no diagnostic
beyond those of the two always-run checks; and a bound or inference
region variant reaching this point is a fatal internal defect — as would
be an empty region, which the initial shortcut prevents from ever
reaching this point. -/
theorem loan_scope_resolution :
    (∀ id, loan_scope_of (.re_scope id) = .scope id) ∧
    (∀ sid br, loan_scope_of (.re_free sid br) = .scope sid) ∧
    loan_scope_of .re_static = .noLoan ∧
    loan_scope_of .re_empty = .invalid ∧
    (∀ n, loan_scope_of (.re_bound n) = .invalid) ∧
    (∀ n, loan_scope_of (.re_infer n) = .invalid) ∧
    (∀ (O : Oracles) (g : GatherLoanCtxt) (bid sp ru : Nat) (cmt : Cmt)
       (m : Mutability) (lp : LoanPath) (rs : RestrictionSet),
       g.repeating_ids.getLast? = some ru →
       O.compute_restrictions sp cmt (restriction_set m) = .SafeIf lp rs →
       (guarantee_valid O g bid sp cmt m .re_static =
          .ok (checked_state O g ru sp cmt m .re_static) ∧
        (checked_state O g ru sp cmt m .re_static).all_loans = g.all_loans ∧
        (checked_state O g ru sp cmt m .re_static).diags =
          g.diags ++ O.guarantee_lifetime g.item_ub ru sp cmt .re_static m ++
            (check_mutability sp cmt m).toList) ∧
       (∀ n, guarantee_valid O g bid sp cmt m (.re_bound n) =
          .error "Invalid borrow lifetime") ∧
       (∀ n, guarantee_valid O g bid sp cmt m (.re_infer n) =
          .error "Invalid borrow lifetime")) := by
  refine ⟨fun _ => rfl, fun _ _ => rfl, rfl, rfl, fun _ => rfl, fun _ => rfl, ?_⟩
  intro O g bid sp ru cmt m lp rs hru hres
  obtain ⟨h1, h2, h3, h4, h5, h6, h7⟩ :=
    checked_state_fields O g ru sp cmt m .re_static
  refine ⟨⟨?_, h3, h7⟩, ?_, ?_⟩
  · unfold guarantee_valid
    rw [if_neg (by simp)]
    simp only [hru, hres]
    rfl
  · intro n
    unfold guarantee_valid
    rw [if_neg (by simp)]
    simp only [hru, hres]
    rfl
  · intro n
    unfold guarantee_valid
    rw [if_neg (by simp)]
    simp only [hru, hres]
    rfl

/-- C6, witness: with a concrete oracle whose restriction engine demands
a restriction, synthesis under a bound region halts with the fatal
internal-defect error. -/
theorem loan_scope_resolution_witness :
    guarantee_valid oracleSafeIf ctxt0 1 5 cmt0 .m_imm (.re_bound 2) =
      .error "Invalid borrow lifetime" :=
  (loan_scope_resolution.2.2.2.2.2.2 oracleSafeIf ctxt0 1 5 0 cmt0 .m_imm
    (.LpVar 3) RESTR_MUTATE rfl rfl).2.1 2

/-- C9: a used-as-mutable mark is propagated up the loan path only for
Exclusive-Mutable loans: the walk follows `Extend` links with
`Inherited` provenance to their base; reaching the `Root` marks that
root local as mutably used, while hitting a `Declared`, `Immutable` or
`ReadOnly` link stops the walk (marking nothing); nothing is marked for
Shared-Readonly or Shared-Immutable requests, and the marking happens
exactly when a Loan is created. -/
theorem mark_loan_path_spec :
    (∀ i, mark_loan_path_as_mutated (.LpVar i) = [i]) ∧
    (∀ b e, mark_loan_path_as_mutated (.LpExtend b .McInherited e) =
      mark_loan_path_as_mutated b) ∧
    (∀ b e, mark_loan_path_as_mutated (.LpExtend b .McDeclared e) = []) ∧
    (∀ b e, mark_loan_path_as_mutated (.LpExtend b .McImmutable e) = []) ∧
    (∀ b e, mark_loan_path_as_mutated (.LpExtend b .McReadOnly e) = []) ∧
    (∀ (O : Oracles) (g g' : GatherLoanCtxt) (bid sp : Nat) (cmt : Cmt)
       (m : Mutability) (r : Region),
       guarantee_valid O g bid sp cmt m r = .ok g' →
       (m ≠ .m_mutbl → g'.used_mut_nodes = g.used_mut_nodes) ∧
       (m = .m_mutbl →
         ((g'.all_loans = g.all_loans ∧
           g'.used_mut_nodes = g.used_mut_nodes) ∨
          (∃ lp rs l, O.compute_restrictions sp cmt (restriction_set m) =
              .SafeIf lp rs ∧
            g'.all_loans = g.all_loans ++ [l] ∧ l.loan_path = lp ∧
            g'.used_mut_nodes =
              g.used_mut_nodes ++ mark_loan_path_as_mutated lp)))) := by
  refine ⟨fun _ => rfl, fun _ _ => rfl, fun _ _ => rfl, fun _ _ => rfl,
    fun _ _ => rfl, ?_⟩
  intro O g g' bid sp cmt m r h
  unfold guarantee_valid at h
  split at h
  · injection h with h
    subst h
    exact ⟨fun _ => rfl, fun _ => .inl ⟨rfl, rfl⟩⟩
  · split at h
    · cases h
    · rename_i ru hru
      obtain ⟨h1, h2, h3, h4, h5, h6, h7⟩ := checked_state_fields O g ru sp cmt m r
      split at h
      · injection h with h
        subst h
        exact ⟨fun _ => h4, fun _ => .inl ⟨h3, h4⟩⟩
      · rename_i lp rs hres
        split at h
        · injection h with h
          subst h
          exact ⟨fun _ => h4, fun _ => .inl ⟨h3, h4⟩⟩
        · cases h
        · rename_i ls hls
          split at h
          · cases h
          · rename_i k hk
            injection h with h
            subst h
            constructor
            · intro hm
              rw [show (∀ (y : GatherLoanCtxt) (ln : Loan),
                    ({ y with all_loans := y.all_loans ++ [ln] } :
                      GatherLoanCtxt).used_mut_nodes = y.used_mut_nodes)
                  from fun _ _ => rfl]
              rw [if_neg hm]
              exact h4
            · intro hm
              subst hm
              refine .inr ⟨lp, rs,
                { index := g.all_loans.length, loan_path := lp, cmt := cmt,
                  mutbl := .m_mutbl, gen_scope := compute_gen_scope O bid ls,
                  kill_scope := k, span := sp, restrictions := rs },
                hres, ?_, rfl, ?_⟩
              · dsimp only
                rw [if_pos rfl]
                dsimp only
                rw [h3]
              · dsimp only
                rw [if_pos rfl]
                dsimp only
                rw [h4]

/-- An oracle whose restriction engine roots every restriction at an
`Inherited` extension of local 4. -/
def oracle9 : Oracles :=
  { oracleBase with
    compute_restrictions := fun _ _ _ =>
      .SafeIf (.LpExtend (.LpVar 4) .McInherited .lp_deref) RESTR_MUTATE }

/-- The state of a concrete Exclusive-Mutable synthesis run under
`oracle9`. -/
def c9Out : GatherLoanCtxt :=
  exOut ctxt0 (guarantee_valid oracle9 ctxt0 1 5 cmt0 .m_mutbl (.re_scope 7))

/-- Witness for C9: the concrete Exclusive-Mutable run marks exactly the
root local 4, found by walking through the `Inherited` link. -/
theorem mark_loan_path_spec_witness : c9Out.used_mut_nodes = [4] := by
  have h := (mark_loan_path_spec.2.2.2.2.2 oracle9 ctxt0 c9Out 1 5 cmt0
    .m_mutbl (.re_scope 7) rfl).2 rfl
  rcases h with ⟨hA, -⟩ | ⟨lp, rs, l, h1, -, -, h4⟩
  · exact absurd hA (by decide)
  · injection h1 with ha hb
    rw [h4, ← ha]
    rfl

theorem gather_pat_pairs_nil_collapse (O : Oracles) (abid mid : Nat)
    (x : Except String GatherLoanCtxt) :
    (match x with
     | .error s => Except.error s
     | .ok g2 => gather_pat_pairs O abid mid [] g2) = x := by
  cases x <;> rfl

/-- C7: for a by-reference binding pattern in a match arm, the loan is
synthesized against the discriminant location wrapped by the
arm-discriminant marker (`cat_discr`) exactly when the region oracle
reports the binding's inferred region to be contained in the arm body's
scope, and against the bare, unwrapped location otherwise; and any Loan
produced by synthesis records exactly the location it was synthesized
against, so the resulting Loan's location is the wrapped respectively
bare discriminant location. -/
theorem gather_pat_ref_binding :
    (∀ (O : Oracles) (g : GatherLoanCtxt) (d c : Cmt) (p : Pat)
       (abid mid : Nat) (m : Mutability),
       O.cat_pattern d p = [(c, p)] →
       p.node = .pat_ident (.bind_by_ref m) →
       O.pat_is_binding p.id = true →
       gather_pat O g d p abid mid =
         (if O.is_subregion_of (O.pat_ty_region p.id) (.re_scope abid) then
            guarantee_valid O g p.id p.span (cat_discr c mid) m
              (O.pat_ty_region p.id)
          else
            guarantee_valid O g p.id p.span c m (O.pat_ty_region p.id))) ∧
    (∀ (O : Oracles) (g g' : GatherLoanCtxt) (bid sp : Nat) (cmt : Cmt)
       (m : Mutability) (r : Region) (l : Loan),
       guarantee_valid O g bid sp cmt m r = .ok g' →
       g'.all_loans = g.all_loans ++ [l] → l.cmt = cmt) := by
  constructor
  · intro O g d c p abid mid m hcp hpn hbind
    have hpp : gather_pat_pair O abid mid g c p =
        (if O.is_subregion_of (O.pat_ty_region p.id) (.re_scope abid) then
           guarantee_valid O g p.id p.span (cat_discr c mid) m
             (O.pat_ty_region p.id)
         else
           guarantee_valid O g p.id p.span c m (O.pat_ty_region p.id)) := by
      unfold gather_pat_pair
      rw [hpn]
      dsimp only
      rw [hbind]
      rfl
    unfold gather_pat
    rw [hcp]
    unfold gather_pat_pairs
    rw [hpp]
    exact gather_pat_pairs_nil_collapse O abid mid _
  · intro O g g' bid sp cmt m r l h hl
    unfold guarantee_valid at h
    split at h
    · injection h with h
      subst h
      simp [List.self_eq_append_right] at hl
    · split at h
      · cases h
      · rename_i ru hru
        obtain ⟨h1, h2, h3, h4, h5, h6, h7⟩ :=
          checked_state_fields O g ru sp cmt m r
        split at h
        · injection h with h
          subst h
          rw [h3] at hl
          simp [List.self_eq_append_right] at hl
        · rename_i lp rs hres
          split at h
          · injection h with h
            subst h
            rw [h3] at hl
            simp [List.self_eq_append_right] at hl
          · cases h
          · split at h
            · cases h
            · injection h with h
              subst h
              have hg3 : (if m = Mutability.m_mutbl then
                  { checked_state O g ru sp cmt m r with
                      used_mut_nodes :=
                        (checked_state O g ru sp cmt m r).used_mut_nodes ++
                          mark_loan_path_as_mutated lp }
                  else checked_state O g ru sp cmt m r).all_loans =
                    g.all_loans := by
                split <;> simp [h3]
              rw [show (∀ (y : GatherLoanCtxt) (ln : Loan),
                    ({ y with all_loans := y.all_loans ++ [ln] } :
                      GatherLoanCtxt).all_loans = y.all_loans ++ [ln])
                  from fun _ _ => rfl] at hl
              rw [hg3] at hl
              have hlan := List.append_cancel_left hl
              injection hlan with hlan
              subst hlan
              rfl

/-- An oracle for the match-arm scenario: the restriction engine demands
a restriction, every region is a subregion of every other (so the
binding's region counts as contained in the arm body's scope), and the
binding's inferred region is scope 3. -/
def oracle7b : Oracles :=
  { oracleSafeIf with
    is_subregion_of := fun _ _ => true
    pat_ty_region := fun _ => .re_scope 3 }

/-- Like `oracle7b` but the region oracle never reports containment (the
binding's region outlives the arm). -/
def oracle7c : Oracles :=
  { oracle7b with is_subregion_of := fun _ _ => false }

/-- A `ref`-binding pattern. -/
def pat7 : Pat := { id := 11, span := 12, node := .pat_ident (.bind_by_ref .m_imm) }

/-- The state after gathering `pat7` against discriminant `cmt0` when
the binding's region is arm-contained. -/
def c7Out : GatherLoanCtxt :=
  exOut ctxt0 (gather_pat oracle7b ctxt0 cmt0 pat7 6 99)

/-- That run's produced Loan. -/
def c7loan : Loan := c7Out.all_loans.getLastD loan_dummy

/-- The state after gathering `pat7` against discriminant `cmt0` when
the binding's region outlives the arm. -/
def c7OutBare : GatherLoanCtxt :=
  exOut ctxt0 (gather_pat oracle7c ctxt0 cmt0 pat7 6 99)

/-- That run's produced Loan. -/
def c7loanBare : Loan := c7OutBare.all_loans.getLastD loan_dummy

/-- Witness for C7: in the arm-contained case the produced Loan's
location is the `cat_discr`-wrapped discriminant; in the outliving case
it is the bare discriminant. -/
theorem gather_pat_ref_binding_witness :
    c7loan.cmt = cat_discr cmt0 99 ∧ c7loanBare.cmt = cmt0 := by
  constructor
  · have h1 := gather_pat_ref_binding.1 oracle7b ctxt0 cmt0 cmt0 pat7 6 99
      .m_imm rfl rfl rfl
    rw [if_pos (show oracle7b.is_subregion_of (oracle7b.pat_ty_region pat7.id)
      (Region.re_scope 6) = true from rfl)] at h1
    exact gather_pat_ref_binding.2 oracle7b ctxt0 c7Out 11 12
      (cat_discr cmt0 99) .m_imm (.re_scope 3) c7loan (h1.symm.trans rfl) rfl
  · have h1 := gather_pat_ref_binding.1 oracle7c ctxt0 cmt0 cmt0 pat7 6 99
      .m_imm rfl rfl rfl
    rw [if_neg (by decide)] at h1
    exact gather_pat_ref_binding.2 oracle7c ctxt0 c7OutBare 11 12
      cmt0 .m_imm (.re_scope 3) c7loanBare (h1.symm.trans rfl) rfl

theorem adjust_step_events {O : Oracles} {eid espan : Nat}
    {g0 gA : GatherLoanCtxt}
    (h : (match O.adjustments eid with
          | some adj => guarantee_adjustments O g0 eid espan adj
          | none => Except.ok g0) = .ok gA) :
    gA.repeating_ids = g0.repeating_ids ∧ gA.item_ub = g0.item_ub ∧
      ∃ t, gA.events = g0.events ++ t ∧ noStackOps t := by
  cases hO : O.adjustments eid with
  | none =>
      rw [hO] at h
      injection h with h
      subst h
      exact ⟨rfl, rfl, [], by simp, noStackOps_nil⟩
  | some adj =>
      rw [hO] at h
      obtain ⟨a, b, -, t, e, n⟩ := guarantee_adjustments_frame h
      exact ⟨a, b, t, e, n⟩

/-- C8: the scope stack obeys strict LIFO discipline: (i) popping
succeeds exactly when the id being popped is the current top of the
stack, and then removes exactly that id; (ii) visiting a `while`
expression pushes the condition's id around the condition visit and then
the body's id around the body visit (the only stack operations of that
visit, in exactly that order); (iii) an unconditional loop and (iv) a
closure push only the body's id around the body visit; and (v) after the
successful visit of any expression the stack is identical to its value
before the visit. -/
theorem repeating_ids_discipline :
    (∀ (g : GatherLoanCtxt) (id : Nat) (g' : GatherLoanCtxt),
       pop_repeating_id g id = .ok g' ↔
         (g.repeating_ids.getLast? = some id ∧
          g' = { g with repeating_ids := g.repeating_ids.dropLast,
                        events := g.events ++ [.pop id] })) ∧
    (∀ (O : Oracles) (eid ecal esp : Nat) (cond : Expr) (body : Blk)
       (g g' : GatherLoanCtxt),
       gather_loans_in_expr O (.mk eid ecal esp (.expr_while cond body)) g =
         .ok g' →
       g'.repeating_ids = g.repeating_ids ∧
       ∃ t0 t1 t2, noStackOps t0 ∧
         g'.events = g.events ++ t0 ++ [.push cond.id] ++ t1 ++
           [.pop cond.id] ++ [.push body.id] ++ t2 ++ [.pop body.id]) ∧
    (∀ (O : Oracles) (eid ecal esp : Nat) (body : Blk)
       (g g' : GatherLoanCtxt),
       gather_loans_in_expr O (.mk eid ecal esp (.expr_loop body)) g = .ok g' →
       g'.repeating_ids = g.repeating_ids ∧
       ∃ t0 t1, noStackOps t0 ∧
         g'.events = g.events ++ t0 ++ [.push body.id] ++ t1 ++
           [.pop body.id]) ∧
    (∀ (O : Oracles) (eid ecal esp : Nat) (body : Blk)
       (g g' : GatherLoanCtxt),
       gather_loans_in_expr O (.mk eid ecal esp (.expr_fn_block body)) g =
         .ok g' →
       g'.repeating_ids = g.repeating_ids ∧
       ∃ t0 t1, noStackOps t0 ∧
         g'.events = g.events ++ t0 ++ [.push body.id] ++ t1 ++
           [.pop body.id]) ∧
    (∀ (O : Oracles) (e : Expr) (g g' : GatherLoanCtxt),
       gather_loans_in_expr O e g = .ok g' →
       g'.repeating_ids = g.repeating_ids) := by
  refine ⟨pop_repeating_id_spec, ?_, ?_, ?_,
    fun O e g g' h => (gather_loans_in_expr_frame O e g g' h).1⟩
  · intro O eid ecal esp cond body g g' h
    refine ⟨(gather_loans_in_expr_frame O _ g g' h).1, ?_⟩
    unfold gather_loans_in_expr at h
    dsimp only at h
    split at h
    · cases h
    · rename_i gA hadj
      obtain ⟨-, -, t0, he0, hn0⟩ := adjust_step_events hadj
      split at h
      · cases h
      · rename_i g2 h2
        obtain ⟨-, -, t1, he1⟩ := gather_loans_in_expr_frame O cond _ g2 h2
        split at h
        · cases h
        · rename_i g3 h3
          rw [pop_repeating_id_spec] at h3
          obtain ⟨-, hg3⟩ := h3
          subst hg3
          split at h
          · cases h
          · rename_i g5 h5
            obtain ⟨-, -, t2, he2⟩ := gather_loans_in_block_frame O body _ g5 h5
            rw [pop_repeating_id_spec] at h
            obtain ⟨-, hg'⟩ := h
            subst hg'
            refine ⟨t0, t1, t2, hn0, ?_⟩
            simp only [push_repeating_id] at he1 he2
            show g5.events ++ [Event.pop body.id] = _
            rw [he2, he1, he0]
  · intro O eid ecal esp body g g' h
    refine ⟨(gather_loans_in_expr_frame O _ g g' h).1, ?_⟩
    unfold gather_loans_in_expr at h
    dsimp only at h
    split at h
    · cases h
    · rename_i gA hadj
      obtain ⟨-, -, t0, he0, hn0⟩ := adjust_step_events hadj
      split at h
      · cases h
      · rename_i g2 h2
        obtain ⟨-, -, t1, he1⟩ := gather_loans_in_block_frame O body _ g2 h2
        rw [pop_repeating_id_spec] at h
        obtain ⟨-, hg'⟩ := h
        subst hg'
        refine ⟨t0, t1, hn0, ?_⟩
        simp only [push_repeating_id] at he1
        show g2.events ++ [Event.pop body.id] = _
        rw [he1, he0]
  · intro O eid ecal esp body g g' h
    refine ⟨(gather_loans_in_expr_frame O _ g g' h).1, ?_⟩
    unfold gather_loans_in_expr at h
    dsimp only at h
    split at h
    · cases h
    · rename_i gA hadj
      obtain ⟨-, -, t0, he0, hn0⟩ := adjust_step_events hadj
      split at h
      · cases h
      · rename_i g2 h2
        obtain ⟨-, -, t1, he1⟩ := gather_loans_in_block_frame O body _ g2 h2
        rw [pop_repeating_id_spec] at h
        obtain ⟨-, hg'⟩ := h
        subst hg'
        refine ⟨t0, t1, hn0, ?_⟩
        simp only [push_repeating_id] at he1
        show g2.events ++ [Event.pop body.id] = _
        rw [he1, he0]

/-- A function body containing a `while` whose condition is expression 4
and whose body block is 10. -/
def w8expr : Expr :=
  .mk 1 2 3 (.expr_while (.mk 4 5 6 (.expr_other .nil))
    (.mk 10 (.cons (.mk 11 12 13 (.expr_other .nil)) .nil)))

/-- The state after visiting `w8expr`. -/
def c8Out : GatherLoanCtxt :=
  exOut ctxt0 (gather_loans_in_expr oracleBase w8expr ctxt0)

/-- Witness for C8: after the concrete while-expression visit the stack
is exactly what it was before the visit. -/
theorem repeating_ids_discipline_witness :
    c8Out.repeating_ids = ctxt0.repeating_ids ∧ ctxt0.repeating_ids = [0] :=
  ⟨repeating_ids_discipline.2.2.2.2 oracleBase w8expr ctxt0 c8Out rfl, rfl⟩

/-- In any successful synthesis run past the empty-region shortcut, the
recorded call to the lifetime checker passes `item_ub` and the top of
`repeating_ids` as `root_ub`. -/
theorem guarantee_valid_lifetime_event {O : Oracles} {g g' : GatherLoanCtxt}
    {bid sp : Nat} {cmt : Cmt} {m : Mutability} {r : Region} {ru : Nat}
    (hru : g.repeating_ids.getLast? = some ru)
    (h : guarantee_valid O g bid sp cmt m r = .ok g')
    (hne : r ≠ .re_empty) :
    ∃ t, g'.events = g.events ++ [.lifetime g.item_ub ru sp] ++ t := by
  obtain ⟨h1, h2, h3, h4, h5, h6, h7⟩ := checked_state_fields O g ru sp cmt m r
  unfold guarantee_valid at h
  rw [if_neg hne] at h
  simp only [hru] at h
  split at h
  · injection h with h
    subst h
    exact ⟨[], by rw [h6]; simp⟩
  · split at h
    · injection h with h
      subst h
      exact ⟨[], by rw [h6]; simp⟩
    · cases h
    · split at h
      · cases h
      · injection h with h
        subst h
        refine ⟨[], ?_⟩
        rw [List.append_nil]
        refine Eq.trans ?_ h6
        split <;> rfl

/-- C10: `gather_loans` initializes the traversal with `repeating_ids`
equal to the singleton holding the function body's id and `item_ub`
equal to that same id; every successful expression or block visit
returns the stack and `item_ub` exactly as it found them, so at every
visit boundary the stack is non-empty with the body id at the bottom;
every successful synthesis run under a non-empty region records a
lifetime-checker call whose `root_ub` is the top of the stack; and for a
borrow synthesized while the stack is the singleton `[item_ub]` — i.e.
outside every loop and closure — the `root_ub` passed to the lifetime
checker is the enclosing function body itself. -/
theorem root_ub_outside_loops :
    (∀ body : Blk, (mkGatherCtxt body).repeating_ids = [body.id] ∧
       (mkGatherCtxt body).item_ub = body.id) ∧
    (∀ (O : Oracles) (e : Expr) (g g' : GatherLoanCtxt),
       gather_loans_in_expr O e g = .ok g' →
       g'.repeating_ids = g.repeating_ids ∧ g'.item_ub = g.item_ub) ∧
    (∀ (O : Oracles) (b : Blk) (g g' : GatherLoanCtxt),
       gather_loans_in_block O b g = .ok g' →
       g'.repeating_ids = g.repeating_ids ∧ g'.item_ub = g.item_ub) ∧
    (∀ (O : Oracles) (g g' : GatherLoanCtxt) (bid sp : Nat) (cmt : Cmt)
       (m : Mutability) (r : Region) (ru : Nat),
       g.repeating_ids.getLast? = some ru →
       guarantee_valid O g bid sp cmt m r = .ok g' →
       r ≠ .re_empty →
       ∃ t, g'.events = g.events ++ [.lifetime g.item_ub ru sp] ++ t) ∧
    (∀ (O : Oracles) (g g' : GatherLoanCtxt) (bid sp : Nat) (cmt : Cmt)
       (m : Mutability) (r : Region),
       g.repeating_ids = [g.item_ub] →
       guarantee_valid O g bid sp cmt m r = .ok g' →
       r ≠ .re_empty →
       ∃ t, g'.events = g.events ++ [.lifetime g.item_ub g.item_ub sp] ++ t) := by
  refine ⟨fun _ => ⟨rfl, rfl⟩, ?_, ?_, ?_, ?_⟩
  · intro O e g g' h
    obtain ⟨a, b, -⟩ := gather_loans_in_expr_frame O e g g' h
    exact ⟨a, b⟩
  · intro O b g g' h
    obtain ⟨a, c, -⟩ := gather_loans_in_block_frame O b g g' h
    exact ⟨a, c⟩
  · intro O g g' bid sp cmt m r ru hru h hne
    exact guarantee_valid_lifetime_event hru h hne
  · intro O g g' bid sp cmt m r hg h hne
    have hru : g.repeating_ids.getLast? = some g.item_ub := by
      rw [hg]
      rfl
    exact guarantee_valid_lifetime_event hru h hne

/-- A function body block with id 5. -/
def blk5 : Blk := .mk 5 .nil

/-- The traversal context as `gather_loans` initializes it for `blk5`. -/
def ctxt5 : GatherLoanCtxt := mkGatherCtxt blk5

/-- The state of a synthesis run performed outside every loop and
closure (the stack is still the singleton `[5]`). -/
def c10Out : GatherLoanCtxt :=
  exOut ctxt5 (guarantee_valid oracleBase ctxt5 1 9 cmt0 .m_imm (.re_scope 7))

/-- Witness for C10: the initial stack is the singleton holding the
body's id, and the concrete outside-all-loops run passes the body id (5)
as both `item_ub` and `root_ub` to the lifetime checker. -/
theorem root_ub_outside_loops_witness :
    ctxt5.repeating_ids = [5] ∧ c10Out.events.take 1 = [.lifetime 5 5 9] := by
  constructor
  · exact (root_ub_outside_loops.1 blk5).1
  · obtain ⟨t, ht⟩ := root_ub_outside_loops.2.2.2.2 oracleBase ctxt5 c10Out
      1 9 cmt0 .m_imm (.re_scope 7) rfl rfl (by decide)
    rw [ht]
    rfl

end GatherLoans
